import Mathlib

/-!
Verification of the d1flash repository (src/src/interface.rs, src/src/bin/main.rs).

The repository drives two GPIO lines of a host board as simulated open-drain
pins, runs an external command ("recipe"), and restores pin configuration on
drop.  This file is a shallow embedding of the relevant code paths: the
hardware registers of one pin are a record, each rppal call is a hardware
action, and the top-level control flow of main is a trace-producing function.
-/

namespace D1Flash

/-! ## Host controller types (rppal::gpio) -/

/-- rppal::gpio::Level. -/
inductive RLevel
  | Low
  | High
  deriving DecidableEq, Repr

/-- rppal::gpio::Mode. -/
inductive RMode
  | Input
  | Output
  | Alt0
  | Alt1
  | Alt2
  | Alt3
  | Alt4
  | Alt5
  deriving DecidableEq, Repr

/-- rppal::gpio::PullUpDown. -/
inductive PullUpDown
  | Off
  | PullDown
  | PullUp
  deriving DecidableEq, Repr

/-! ## Interface types (src/src/interface.rs) -/

/-- interface::Level. -/
inductive Level
  | Low
  | High
  deriving DecidableEq, Repr

/-- impl From(Level) for bool. -/
def Level.toBool : Level → Bool
  | .Low => false
  | .High => true

/-- impl From(bool) for Level. -/
def Level.ofBool : Bool → Level
  | true => .High
  | false => .Low

/-- impl From(Level) for rppal::gpio::Level. -/
def Level.toRLevel : Level → RLevel
  | .Low => .Low
  | .High => .High

/-- impl From(rppal::gpio::Level) for Level. -/
def Level.ofRLevel : RLevel → Level
  | .Low => .Low
  | .High => .High

/-- impl From(Level) for rppal::gpio::PullUpDown. -/
def Level.toPullUpDown : Level → PullUpDown
  | .Low => .PullDown
  | .High => .PullUp

/-- interface::Mode. -/
inductive Mode
  | Input
  | Output
  | Alt0
  | Alt1
  | Alt2
  | Alt3
  | Alt4
  | Alt5
  deriving DecidableEq, Repr

/-- impl From(Mode) for rppal::gpio::Mode. -/
def Mode.toRMode : Mode → RMode
  | .Input => .Input
  | .Output => .Output
  | .Alt0 => .Alt0
  | .Alt1 => .Alt1
  | .Alt2 => .Alt2
  | .Alt3 => .Alt3
  | .Alt4 => .Alt4
  | .Alt5 => .Alt5

/-- impl From(rppal::gpio::Mode) for Mode. -/
def Mode.ofRMode : RMode → Mode
  | .Input => .Input
  | .Output => .Output
  | .Alt0 => .Alt0
  | .Alt1 => .Alt1
  | .Alt2 => .Alt2
  | .Alt3 => .Alt3
  | .Alt4 => .Alt4
  | .Alt5 => .Alt5

/-- interface::OpenDrainState. -/
inductive OpenDrainState
  | Low
  | Open
  deriving DecidableEq, Repr

/-- impl From(OpenDrainState) for rppal::gpio::Mode. -/
def OpenDrainState.toRMode : OpenDrainState → RMode
  | .Low => .Output
  | .Open => .Input

/-- interface::PinState: the configuration captured from a pin at construction.
The pull resistor configuration cannot be read back, hence the Option. -/
structure PinState where
  mode : Mode
  level : Level
  pull : Option Level
  deriving DecidableEq, Repr

/-- interface::PinDropState: a partially specified target configuration. -/
structure PinDropState where
  mode : Option Mode
  level : Option Level
  pull : Option Level
  deriving DecidableEq, Repr

/-! ## Hardware model

One physical pin is a record of the registers the program touches, plus the
reset-on-drop flag of the rppal IoPin handle.  Each rppal call the program
makes is one HwAction; applying an action updates the registers.  The pull
register is an Option so that a never-configured pull stays distinguishable
(it cannot be read back from hardware). -/

/-- Registers of one physical pin as seen through the rppal handle. -/
structure IoPin where
  mode : RMode
  level : RLevel
  pull : Option PullUpDown
  resetOnDrop : Bool
  deriving DecidableEq, Repr

/-- One call into the rppal GPIO driver. -/
inductive HwAction
  | setMode (m : RMode)
  | setLow
  | write (l : RLevel)
  | setPull (p : PullUpDown)
  | setResetOnDrop (b : Bool)
  deriving DecidableEq, Repr

/-- Effect of one driver call on the pin registers. -/
def IoPin.applyAction (p : IoPin) : HwAction → IoPin
  | .setMode m => { p with mode := m }
  | .setLow => { p with level := RLevel.Low }
  | .write l => { p with level := l }
  | .setPull q => { p with pull := some q }
  | .setResetOnDrop b => { p with resetOnDrop := b }

/-- Effect of a sequence of driver calls, first action first. -/
def IoPin.applyAll (p : IoPin) (as : List HwAction) : IoPin :=
  as.foldl IoPin.applyAction p

/-! ## OpenDrainPin (src/src/interface.rs) -/

/-- interface::OpenDrainPin. -/
structure OpenDrainPin where
  pin : IoPin
  state : OpenDrainState
  initial_state : PinState
  final_state : PinDropState
  deriving DecidableEq, Repr

/-- Driver calls made by OpenDrainPin::set_low: level low, mode Output,
level low again (defensive double set, as in the source). -/
def setLowActions : List HwAction :=
  [.setLow, .setMode .Output, .setLow]

/-- OpenDrainPin::set_low. -/
def OpenDrainPin.set_low (p : OpenDrainPin) : OpenDrainPin :=
  { p with pin := p.pin.applyAll setLowActions, state := .Low }

/-- Driver calls made by OpenDrainPin::set_open: mode Input, then pull-up. -/
def setOpenActions : List HwAction :=
  [.setMode .Input, .setPull .PullUp]

/-- OpenDrainPin::set_open. -/
def OpenDrainPin.set_open (p : OpenDrainPin) : OpenDrainPin :=
  { p with pin := p.pin.applyAll setOpenActions, state := .Open }

/-- OpenDrainPin::set: dispatches to set_low / set_open. -/
def OpenDrainPin.set (p : OpenDrainPin) : OpenDrainState → OpenDrainPin
  | .Low => p.set_low
  | .Open => p.set_open

/-- OpenDrainPin::new: captures the current mode and level (pull cannot be
read and is recorded as none), converts the handle with into_io(state.into()),
disables the controller reset-on-drop, and applies the requested state. -/
def OpenDrainPin.new (pin : IoPin) (state : OpenDrainState)
    (final_state : PinDropState) : OpenDrainPin :=
  let initial_state : PinState :=
    { mode := Mode.ofRMode pin.mode
      level := Level.ofRLevel pin.level
      pull := none }
  let pin := pin.applyAction (.setMode state.toRMode)
  let pin := pin.applyAction (.setResetOnDrop false)
  let p : OpenDrainPin :=
    { pin := pin
      state := state
      initial_state := initial_state
      final_state := final_state }
  p.set state

/-- Driver calls made by the Drop impl for OpenDrainPin: mode first
(drop-policy mode, else captured mode), then the level write (drop-policy
level, else captured level), then the pull only when the drop policy gives
one. -/
def dropActions (p : OpenDrainPin) : List HwAction :=
  [.setMode (p.final_state.mode.getD p.initial_state.mode).toRMode,
   .write (p.final_state.level.getD p.initial_state.level).toRLevel] ++
  (match p.final_state.pull with
   | some pull => [.setPull pull.toPullUpDown]
   | none => [])

/-- Register state of the physical pin after the Drop impl runs. -/
def OpenDrainPin.dropPin (p : OpenDrainPin) : IoPin :=
  p.pin.applyAll (dropActions p)

/-- The physical configuration announced for each simulated state: Low is
Output mode driving low, Open is Input mode with the pull-up applied. -/
def odConfigOk (pin : IoPin) : OpenDrainState → Prop
  | .Low => pin.mode = .Output ∧ pin.level = .Low
  | .Open => pin.mode = .Input ∧ pin.pull = some .PullUp

theorem Mode.toRMode_ofRMode (m : RMode) : (Mode.ofRMode m).toRMode = m := by
  cases m <;> rfl

theorem Level.toRLevel_ofRLevel (l : RLevel) : (Level.ofRLevel l).toRLevel = l := by
  cases l <;> rfl

/-- C1. After set(state) — and likewise immediately after new with that state —
the pin is physically in exactly the configuration of the requested state
(Output driving Low for Low, Input with pull-up for Open), the stored state
field equals the request, and this holds from any prior pin state, so set is
idempotent. -/
theorem set_establishes_open_drain_config
    (p : OpenDrainPin) (s : OpenDrainState) (pin0 : IoPin) (fs : PinDropState) :
    ((p.set s).state = s ∧ odConfigOk (p.set s).pin s) ∧
    ((OpenDrainPin.new pin0 s fs).state = s ∧
      odConfigOk (OpenDrainPin.new pin0 s fs).pin s) ∧
    (p.set s).set s = p.set s := by
  cases s <;>
    simp [OpenDrainPin.set, OpenDrainPin.set_low, OpenDrainPin.set_open,
      OpenDrainPin.new, IoPin.applyAll, IoPin.applyAction, odConfigOk,
      setLowActions, setOpenActions]

/-- C2. The Drop impl sets mode (policy mode, else captured) before it writes
the level (policy level, else captured), and touches the pull only when the
policy gives one.  Consequently new-then-drop with a fully unspecified policy
restores the captured mode and level and leaves the pull where the simulation
left it, and a fully specified policy yields exactly its own state whatever
was captured. -/
theorem drop_restores_or_overrides
    (p : OpenDrainPin) (pin0 : IoPin) (s : OpenDrainState)
    (m : Mode) (l : Level) (pl : Level) :
    (dropActions p =
      [.setMode (p.final_state.mode.getD p.initial_state.mode).toRMode,
       .write (p.final_state.level.getD p.initial_state.level).toRLevel] ++
      (match p.final_state.pull with
       | some pull => [.setPull pull.toPullUpDown]
       | none => [])) ∧
    ((OpenDrainPin.new pin0 s ⟨none, none, none⟩).dropPin.mode = pin0.mode ∧
     (OpenDrainPin.new pin0 s ⟨none, none, none⟩).dropPin.level = pin0.level ∧
     (OpenDrainPin.new pin0 s ⟨none, none, none⟩).dropPin.pull =
       (OpenDrainPin.new pin0 s ⟨none, none, none⟩).pin.pull) ∧
    ((OpenDrainPin.new pin0 s ⟨some m, some l, some pl⟩).dropPin.mode = m.toRMode ∧
     (OpenDrainPin.new pin0 s ⟨some m, some l, some pl⟩).dropPin.level = l.toRLevel ∧
     (OpenDrainPin.new pin0 s ⟨some m, some l, some pl⟩).dropPin.pull =
       some pl.toPullUpDown) := by
  refine ⟨rfl, ?_, ?_⟩ <;>
    cases s <;>
      simp [OpenDrainPin.new, OpenDrainPin.set, OpenDrainPin.set_low,
        OpenDrainPin.set_open, OpenDrainPin.dropPin, dropActions,
        IoPin.applyAll, IoPin.applyAction, setLowActions, setOpenActions,
        Mode.toRMode_ofRMode, Level.toRLevel_ofRLevel]

/-- True when the action list contains a pull configuration call. -/
def touchesPull (as : List HwAction) : Bool :=
  as.any fun a =>
    match a with
    | .setPull _ => true
    | _ => false

/-- C7. set_open always switches the mode to Input and then applies a pull-up,
for every drop policy — its hardware effect never depends on the policy —
while the drop path configures the pull exactly when the policy carries one,
and then with the policy value. -/
theorem set_open_pullup_vs_drop_pull
    (p : OpenDrainPin) (fs fs2 : PinDropState) (pull : Level) :
    ((p.set_open).pin.mode = .Input ∧ (p.set_open).pin.pull = some .PullUp ∧
      (p.set_open).state = .Open) ∧
    ({ p with final_state := fs } : OpenDrainPin).set_open.pin =
      ({ p with final_state := fs2 } : OpenDrainPin).set_open.pin ∧
    (touchesPull (dropActions p) = p.final_state.pull.isSome) ∧
    (p.final_state.pull = some pull →
      p.dropPin.pull = some pull.toPullUpDown) ∧
    (p.final_state.pull = none → p.dropPin.pull = p.pin.pull) := by
  refine ⟨?_, ?_, ?_, ?_, ?_⟩
  · simp [OpenDrainPin.set_open, IoPin.applyAll, IoPin.applyAction, setOpenActions]
  · simp [OpenDrainPin.set_open, IoPin.applyAll, IoPin.applyAction, setOpenActions]
  · cases h : p.final_state.pull <;>
      simp [touchesPull, dropActions, h]
  · intro h
    simp [OpenDrainPin.dropPin, dropActions, h, IoPin.applyAll, IoPin.applyAction]
  · intro h
    simp [OpenDrainPin.dropPin, dropActions, h, IoPin.applyAll, IoPin.applyAction]

/-- Witness for set_open_pullup_vs_drop_pull at a concrete pin: the drop
policy specifies a pull-up, and both drop-path conclusions evaluate. -/
theorem set_open_pullup_vs_drop_pull_witness :
    (({ pin := ⟨.Input, .High, none, true⟩
        state := .Open
        initial_state := ⟨.Input, .High, none⟩
        final_state := ⟨none, none, some .High⟩ } : OpenDrainPin).final_state.pull =
      some Level.High) ∧
    ({ pin := ⟨.Input, .High, none, true⟩
       state := .Open
       initial_state := ⟨.Input, .High, none⟩
       final_state := ⟨none, none, some .High⟩ } : OpenDrainPin).dropPin.pull =
      some Level.High.toPullUpDown := by
  refine ⟨by decide, ?_⟩
  exact (set_open_pullup_vs_drop_pull
    { pin := ⟨.Input, .High, none, true⟩
      state := .Open
      initial_state := ⟨.Input, .High, none⟩
      final_state := ⟨none, none, some .High⟩ }
    ⟨none, none, none⟩ ⟨none, none, none⟩ .High).2.2.2.1 (by decide)

/-! ## Recipe (src/src/interface.rs) -/

/-- interface::Recipe. -/
structure Recipe where
  command : String
  arguments : List String
  deriving DecidableEq, Repr

/-- Recipe::new. -/
def Recipe.new (command : String) (arguments : List String) : Recipe :=
  { command := command, arguments := arguments }

/-- Models the Rust slice expression xs[i..]: the slice exists only when
i ≤ xs.len(); otherwise the program panics (none). -/
def sliceFrom (xs : List String) (i : Nat) : Option (List String) :=
  if i ≤ xs.length then some (xs.drop i) else none

/-- impl From(Vec(String)) for Recipe: the command falls back to the empty
string on an empty vector, but the arguments are still taken as value[1..],
which panics (none) when the vector is empty. -/
def Recipe.fromTokens (value : List String) : Option Recipe :=
  let command := if value.isEmpty then "" else value.headD ""
  (sliceFrom value 1).map fun arguments => Recipe.new command arguments

/-- Outcome of handing a command line to the operating system. -/
inductive CommandOutcome
  | spawnError
  | exited (code : Nat)
  deriving DecidableEq, Repr

/-- Recipe::execute: Command::status() — an io error when the command could
not be spawned or waited on, otherwise the exit status of the child, whatever
its value. -/
def Recipe.execute (_r : Recipe) (outcome : CommandOutcome) : Except Unit Nat :=
  match outcome with
  | .spawnError => .error ()
  | .exited code => .ok code

/-! ## Recipe selection (src/src/bin/main.rs) -/

/-- The configured recipes map, modelled as an association list. -/
def lookupRecipe (m : List (String × Recipe)) (k : String) : Option Recipe :=
  match m with
  | [] => none
  | (k2, v) :: rest => if k2 = k then some v else lookupRecipe rest k

/-- HashMap::contains_key. -/
def containsRecipe (m : List (String × Recipe)) (k : String) : Bool :=
  (lookupRecipe m k).isSome

/-- The recipe match in main: zero tokens takes the default recipe from the
table, one token that is a key takes that recipe, anything else goes through
Recipe::from.  none models a panic (failed table index or empty slice). -/
def selectRecipe (recipes : List (String × Recipe)) (default_recipe : String)
    (tokens : List String) : Option Recipe :=
  match tokens with
  | [] => lookupRecipe recipes default_recipe
  | [t] =>
      if containsRecipe recipes t then lookupRecipe recipes t
      else Recipe.fromTokens [t]
  | ts => Recipe.fromTokens ts

theorem fromTokens_cons (t : String) (ts : List String) :
    Recipe.fromTokens (t :: ts) = some (Recipe.new t ts) := by
  simp [Recipe.fromTokens, sliceFrom]

theorem selectRecipe_isSome (recipes : List (String × Recipe))
    (default_recipe : String) (tokens : List String)
    (h : containsRecipe recipes default_recipe = true) :
    (selectRecipe recipes default_recipe tokens).isSome = true := by
  match tokens with
  | [] => simpa [selectRecipe, containsRecipe] using h
  | [t] =>
      by_cases ht : containsRecipe recipes t
      · have ht2 : (lookupRecipe recipes t).isSome = true := ht
        simp [selectRecipe, containsRecipe, ht2]
      · simp [selectRecipe, ht, fromTokens_cons]
  | t1 :: t2 :: ts => simp [selectRecipe, fromTokens_cons]

/-- C5. Recipe selection: zero tokens selects the configured default recipe;
one token that is a key selects that recipe; otherwise (one non-matching
token, or two or more tokens) the tokens become a literal command — first
token as command, rest as arguments — bypassing the table. -/
theorem recipe_selection_policy
    (recipes : List (String × Recipe)) (d t t1 t2 : String)
    (ts : List String) (r : Recipe) :
    (lookupRecipe recipes d = some r → selectRecipe recipes d [] = some r) ∧
    (lookupRecipe recipes t = some r → selectRecipe recipes d [t] = some r) ∧
    (lookupRecipe recipes t = none →
      selectRecipe recipes d [t] = some (Recipe.new t [])) ∧
    (selectRecipe recipes d (t1 :: t2 :: ts) =
      some (Recipe.new t1 (t2 :: ts))) := by
  refine ⟨?_, ?_, ?_, ?_⟩
  · intro h
    simp [selectRecipe, h]
  · intro h
    simp [selectRecipe, containsRecipe, h]
  · intro h
    simp [selectRecipe, containsRecipe, h, fromTokens_cons]
  · simp [selectRecipe, fromTokens_cons]

/-- Witness for recipe_selection_policy on the table of the spec example:
recipes containing a single entry a, default a, and the four token lists of
the example. -/
theorem recipe_selection_policy_witness :
    (lookupRecipe [("a", Recipe.new "cmd_a" [])] "a" = some (Recipe.new "cmd_a" []) ∧
      selectRecipe [("a", Recipe.new "cmd_a" [])] "a" [] = some (Recipe.new "cmd_a" [])) ∧
    (lookupRecipe [("a", Recipe.new "cmd_a" [])] "b" = none ∧
      selectRecipe [("a", Recipe.new "cmd_a" [])] "a" ["b"] = some (Recipe.new "b" [])) ∧
    selectRecipe [("a", Recipe.new "cmd_a" [])] "a" ["ls", "-la"] =
      some (Recipe.new "ls" ["-la"]) := by
  have h := recipe_selection_policy [("a", Recipe.new "cmd_a" [])] "a" "b" "ls" "-la"
    [] (Recipe.new "cmd_a" [])
  refine ⟨⟨by decide, h.1 (by decide)⟩, ⟨by decide, h.2.2.1 (by decide)⟩, ?_⟩
  exact (recipe_selection_policy [("a", Recipe.new "cmd_a" [])] "a" "b" "ls" "-la"
    [] (Recipe.new "ls" ["-la"])).2.2.2

/-- C10. Recipe::from(Vec(String)) panics on the empty vector — the command
field is guarded but the slice value[1..] is still taken — and on every
non-empty vector yields first token as command and the rest as arguments;
the selection logic in main never reaches the conversion with an empty
vector, so under a valid configuration selection never panics. -/
theorem from_tokens_panics_only_on_empty
    (t : String) (ts : List String)
    (recipes : List (String × Recipe)) (d : String) (tokens : List String) :
    Recipe.fromTokens [] = none ∧
    Recipe.fromTokens (t :: ts) = some (Recipe.new t ts) ∧
    (containsRecipe recipes d = true →
      (selectRecipe recipes d tokens).isSome = true) := by
  exact ⟨by simp [Recipe.fromTokens, sliceFrom], fromTokens_cons t ts,
    selectRecipe_isSome recipes d tokens⟩

/-- Witness for from_tokens_panics_only_on_empty on the one-entry table with
default a and a two-token command line. -/
theorem from_tokens_panics_only_on_empty_witness :
    containsRecipe [("a", Recipe.new "cmd_a" [])] "a" = true ∧
    (selectRecipe [("a", Recipe.new "cmd_a" [])] "a" ["ls", "-la"]).isSome = true := by
  refine ⟨by decide, ?_⟩
  exact (from_tokens_panics_only_on_empty "x" [] [("a", Recipe.new "cmd_a" [])] "a"
    ["ls", "-la"]).2.2 (by decide)

/-! ## Configuration and command line (src/src/interface.rs) -/

/-- interface::PinConfig. -/
structure PinConfig where
  pin : Nat
  state : PinDropState
  deriving DecidableEq, Repr

/-- interface::Configuration. -/
structure Configuration where
  boot : PinConfig
  reset : PinConfig
  default_recipe : String
  recipes : List (String × Recipe)
  deriving DecidableEq, Repr

/-- interface::Cli as consumed by main.  interface.rs declares reset as a
bool, but main.rs reads it as an optional flag carrying an optional
millisecond delay override (the files are inconsistent as written); the
sequencing claims cite main.rs, so the embedding follows the consumer: none
means the flag is absent, some d means the flag is present with override d.
flash is the boolean boot-mode flag, declared with the documentation that
flash implies reset. -/
structure Cli where
  config_path : String
  recipe : List String
  reset : Option (Option Nat)
  flash : Bool
  deriving DecidableEq, Repr

/-! ## Trace model of main (src/src/bin/main.rs)

main is embedded as a function from the configuration, the parsed command
line, the outcome the operating system gives the spawned command, and an
interleaving schedule for the two threads of step 5, to a result and the
list of externally visible actions in order.  The schedule decides, at each
step of the scoped region, whether the next emitted action comes from the
main thread (true) or from the background reset task (false); the claims
proved below hold for every schedule, which is how the join-before-step-6
guarantee is expressed without real time. -/

/-- The two pins of the sequence. -/
inductive PinId
  | boot
  | reset
  deriving DecidableEq, Repr

/-- One externally visible action of main. -/
inductive SideAction
  | gpioNew
  | pinGet (n : Nat)
  | pinNew (which : PinId)
  | pinSet (which : PinId) (s : OpenDrainState)
  | sleep (ms : Nat)
  | spawnRecipe (r : Recipe)
  | pinDrop (which : PinId)
  deriving DecidableEq, Repr

/-- Result of a run of main. -/
inductive MainResult
  | ok
  | configError
  | panicked
  deriving DecidableEq, Repr

/-- Interleaving of the two action streams of the scoped region, directed by
the schedule; once either stream is exhausted the rest of the other follows. -/
def merge : List Bool → List SideAction → List SideAction → List SideAction
  | _, [], ys => ys
  | _, xs, [] => xs
  | [], xs, ys => xs ++ ys
  | true :: s, x :: xs, ys => x :: merge s xs ys
  | false :: s, xs, y :: ys => y :: merge s xs ys

/-- Number of occurrences of an action in a trace. -/
def actionCount (a : SideAction) : List SideAction → Nat
  | [] => 0
  | b :: rest => (if b = a then 1 else 0) + actionCount a rest

theorem actionCount_append (a : SideAction) (xs ys : List SideAction) :
    actionCount a (xs ++ ys) = actionCount a xs + actionCount a ys := by
  induction xs with
  | nil => simp [actionCount]
  | cons b rest ih => simp [actionCount, ih, Nat.add_assoc]

theorem actionCount_merge (a : SideAction) (sched : List Bool)
    (xs ys : List SideAction) :
    actionCount a (merge sched xs ys) = actionCount a xs + actionCount a ys := by
  induction sched generalizing xs ys with
  | nil => cases xs <;> cases ys <;>
      simp [merge, actionCount, actionCount_append] <;> ring
  | cons b s ih => cases b <;> cases xs <;> cases ys <;>
      simp [merge, actionCount, ih, Nat.add_assoc] <;> ring

/-- Actions of the background task of step 5: when the reset flag is
present, sleep for the override or its 2000 ms default, release boot to
Open, drive reset Low, sleep 100 ms, release reset to Open, sleep 100 ms;
without the flag the task body does nothing.  cli.flash is not consulted. -/
def resetTaskTrace (cli : Cli) : List SideAction :=
  match cli.reset with
  | some reset_flag =>
      [.sleep (reset_flag.getD 2000),
       .pinSet .boot .Open,
       .pinSet .reset .Low,
       .sleep 100,
       .pinSet .reset .Open,
       .sleep 100]
  | none => []

/-- Actions of main before the scoped region: acquire the controller and the
two pins, then the fixed boot-mode entry sequence of steps 2 to 4. -/
def bootstrapTrace (cfg : Configuration) : List SideAction :=
  [.gpioNew,
   .pinGet cfg.boot.pin, .pinNew .boot,
   .pinGet cfg.reset.pin, .pinNew .reset,
   .pinSet .boot .Low, .sleep 20,
   .pinSet .reset .Low, .sleep 100,
   .pinSet .reset .Open, .sleep 100]

/-- Actions of step 6, after the scoped region: release boot, wait 20 ms,
drive reset Low, wait 100 ms, release reset. -/
def step6Trace : List SideAction :=
  [.pinSet .boot .Open, .sleep 20,
   .pinSet .reset .Low, .sleep 100,
   .pinSet .reset .Open]

/-- Drops of the two pins at the end of main, in reverse declaration order. -/
def dropTrace : List SideAction :=
  [.pinDrop .reset, .pinDrop .boot]

/-- The control flow of main.  An invalid default recipe bails before any
action.  Inside the scope, a selection panic or a spawn failure (expect)
unwinds: the scope still joins the background task, the pins are dropped
while unwinding, and step 6 never runs.  A command that spawns and exits —
with any status, the status is discarded — continues to step 6 and the
ordinary drops. -/
def mainRun (cfg : Configuration) (cli : Cli) (outcome : CommandOutcome)
    (sched : List Bool) : MainResult × List SideAction :=
  if containsRecipe cfg.recipes cfg.default_recipe then
    match selectRecipe cfg.recipes cfg.default_recipe cli.recipe with
    | none =>
        (.panicked,
         bootstrapTrace cfg ++ merge sched [] (resetTaskTrace cli) ++ dropTrace)
    | some r =>
        match Recipe.execute r outcome with
        | .error _ =>
            (.panicked,
             bootstrapTrace cfg ++
               merge sched [.spawnRecipe r] (resetTaskTrace cli) ++ dropTrace)
        | .ok _ =>
            (.ok,
             bootstrapTrace cfg ++
               merge sched [.spawnRecipe r] (resetTaskTrace cli) ++
               step6Trace ++ dropTrace)
  else (.configError, [])

/-- Example configuration used by the closed witnesses. -/
def cfgEx : Configuration :=
  { boot := ⟨2, ⟨none, none, none⟩⟩
    reset := ⟨3, ⟨none, none, none⟩⟩
    default_recipe := "a"
    recipes := [("a", Recipe.new "cmd_a" [])] }

/-- Example configuration whose default recipe names no configured recipe. -/
def cfgBad : Configuration :=
  { boot := ⟨2, ⟨none, none, none⟩⟩
    reset := ⟨3, ⟨none, none, none⟩⟩
    default_recipe := "b"
    recipes := [("a", Recipe.new "cmd_a" [])] }

/-- Example command line: no tokens, no reset flag, no flash flag. -/
def cliEx : Cli :=
  { config_path := "d1flash.toml", recipe := [], reset := none, flash := false }

/-- Example command line with the reset flag and a 500 ms override. -/
def cliReset : Cli :=
  { config_path := "d1flash.toml", recipe := [], reset := some (some 500),
    flash := false }

/-- C3 counterexample. A command that spawns and exits with status 1 — a
non-zero exit — does not abort the process: execute returns it as an Ok
status, the expect succeeds, and main runs to completion normally. -/
theorem nonzero_exit_does_not_abort :
    (1 : Nat) ≠ 0 ∧
    Recipe.execute (Recipe.new "cmd_a" []) (.exited 1) = .ok 1 ∧
    (mainRun cfgEx cliEx (.exited 1) []).1 = .ok := by
  refine ⟨by decide, rfl, by decide⟩

/-- C3 amended. Of the two failure kinds, only a failure to spawn (or wait
on) the command aborts the process, through the expect on the io error; a
spawned command that exits non-zero returns an Ok status that is discarded,
and execution continues.  Under a valid configuration, main panics exactly
when the spawn fails. -/
theorem abort_iff_spawn_error
    (cfg : Configuration) (cli : Cli) (o : CommandOutcome) (sched : List Bool)
    (h : containsRecipe cfg.recipes cfg.default_recipe = true) :
    (mainRun cfg cli o sched).1 = .panicked ↔ o = .spawnError := by
  have hs := selectRecipe_isSome cfg.recipes cfg.default_recipe cli.recipe h
  obtain ⟨r, hr⟩ := Option.isSome_iff_exists.mp hs
  cases o with
  | spawnError => simp [mainRun, h, hr, Recipe.execute]
  | exited c => simp [mainRun, h, hr, Recipe.execute]

/-- Witness for abort_iff_spawn_error: the example configuration is valid,
and on a spawn failure the run indeed panics. -/
theorem abort_iff_spawn_error_witness :
    containsRecipe cfgEx.recipes cfgEx.default_recipe = true ∧
    (mainRun cfgEx cliEx .spawnError []).1 = .panicked := by
  refine ⟨by decide, ?_⟩
  exact (abort_iff_spawn_error cfgEx cliEx .spawnError [] (by decide)).mpr rfl

/-- C4. The flash flag is declared with the documentation that flash implies
reset, but main never reads it: with flash set and the reset flag absent,
the delayed-reset task performs no action at all. -/
theorem flash_flag_ignored :
    ({ config_path := "d1flash.toml", recipe := [], reset := none,
       flash := true } : Cli).flash = true ∧
    resetTaskTrace
      { config_path := "d1flash.toml", recipe := [], reset := none,
        flash := true } = [] := by
  exact ⟨rfl, rfl⟩

/-- C6. A configuration whose default recipe is not a key of the recipes map
is rejected: main bails with an error, and its trace is empty — no pin is
acquired or mutated and no external process action occurs. -/
theorem invalid_default_recipe_rejected_before_actions
    (cfg : Configuration) (cli : Cli) (o : CommandOutcome) (sched : List Bool)
    (h : containsRecipe cfg.recipes cfg.default_recipe = false) :
    (mainRun cfg cli o sched).1 = .configError ∧
    (mainRun cfg cli o sched).2 = [] := by
  simp [mainRun, h]

/-- Witness for invalid_default_recipe_rejected_before_actions on the
configuration whose default recipe b names no configured recipe. -/
theorem invalid_default_recipe_rejected_before_actions_witness :
    containsRecipe cfgBad.recipes cfgBad.default_recipe = false ∧
    (mainRun cfgBad cliEx (.exited 0) []).1 = .configError ∧
    (mainRun cfgBad cliEx (.exited 0) []).2 = [] := by
  refine ⟨by decide, ?_⟩
  exact invalid_default_recipe_rejected_before_actions cfgBad cliEx (.exited 0) []
    (by decide)

/-- C8. With the reset flag, the background task sleeps for the override or
its 2000 ms default, releases boot to Open, drives reset Low, waits 100 ms,
releases reset to Open, and waits 100 ms; without the flag it performs no
action.  The merge of the scoped region neither loses nor invents actions,
and when the command runs to an exit the whole trace places that merged
region — hence every action of the task — strictly before step 6. -/
theorem delayed_reset_task_spec
    (cfg : Configuration) (cli : Cli) (sched : List Bool) (c : Nat)
    (ov : Option Nat) (r : Recipe) (a : SideAction)
    (xs ys : List SideAction) :
    (cli.reset = some ov → resetTaskTrace cli =
      [.sleep (ov.getD 2000), .pinSet .boot .Open, .pinSet .reset .Low,
       .sleep 100, .pinSet .reset .Open, .sleep 100]) ∧
    (cli.reset = none → resetTaskTrace cli = []) ∧
    (actionCount a (merge sched xs ys) =
      actionCount a xs + actionCount a ys) ∧
    (containsRecipe cfg.recipes cfg.default_recipe = true →
      selectRecipe cfg.recipes cfg.default_recipe cli.recipe = some r →
      (mainRun cfg cli (.exited c) sched).2 =
        bootstrapTrace cfg ++
          merge sched [.spawnRecipe r] (resetTaskTrace cli) ++
          (step6Trace ++ dropTrace)) := by
  refine ⟨?_, ?_, actionCount_merge a sched xs ys, ?_⟩
  · intro h
    simp [resetTaskTrace, h]
  · intro h
    simp [resetTaskTrace, h]
  · intro h hr
    simp [mainRun, h, hr, Recipe.execute]

/-- Witness for delayed_reset_task_spec: reset flag present with a 500 ms
override, the valid example configuration, no tokens, a schedule that lets
the main thread spawn first, and exit status 0. -/
theorem delayed_reset_task_spec_witness :
    cliReset.reset = some (some 500) ∧
    containsRecipe cfgEx.recipes cfgEx.default_recipe = true ∧
    selectRecipe cfgEx.recipes cfgEx.default_recipe cliReset.recipe =
      some (Recipe.new "cmd_a" []) ∧
    resetTaskTrace cliReset =
      [.sleep 500, .pinSet .boot .Open, .pinSet .reset .Low,
       .sleep 100, .pinSet .reset .Open, .sleep 100] ∧
    (mainRun cfgEx cliReset (.exited 0) [true]).2 =
      bootstrapTrace cfgEx ++
        merge [true] [.spawnRecipe (Recipe.new "cmd_a" [])]
          (resetTaskTrace cliReset) ++
        (step6Trace ++ dropTrace) := by
  have h := delayed_reset_task_spec cfgEx cliReset [true] 0 (some 500)
    (Recipe.new "cmd_a" []) .gpioNew [] []
  refine ⟨rfl, by decide, by decide, ?_, ?_⟩
  · exact h.1 rfl
  · exact h.2.2.2 (by decide) (by decide)

theorem actionCount_pinDrop_bootstrap (w : PinId) (cfg : Configuration) :
    actionCount (.pinDrop w) (bootstrapTrace cfg) = 0 := by
  simp [bootstrapTrace, actionCount]

theorem actionCount_pinDrop_resetTask (w : PinId) (cli : Cli) :
    actionCount (.pinDrop w) (resetTaskTrace cli) = 0 := by
  cases h : cli.reset <;> simp [resetTaskTrace, h, actionCount]

theorem actionCount_pinDrop_step6 (w : PinId) :
    actionCount (.pinDrop w) step6Trace = 0 := by
  simp [step6Trace, actionCount]

theorem actionCount_pinDrop_dropTrace (w : PinId) :
    actionCount (.pinDrop w) dropTrace = 1 := by
  cases w <;> simp [dropTrace, actionCount]

theorem actionCount_pinDrop_spawn (w : PinId) (r : Recipe) :
    actionCount (.pinDrop w) [.spawnRecipe r] = 0 := by
  simp [actionCount]

/-- C9. The constructor disables the automatic reset-on-release of the
controller, so no second release mechanism remains; and on every run of main
with a valid configuration — whatever the command outcome and schedule,
success, non-zero exit, or a panic from a spawn failure — the drop
restoration of each pin appears exactly once in the trace. -/
theorem teardown_exactly_once
    (pin0 : IoPin) (s : OpenDrainState) (fs : PinDropState)
    (cfg : Configuration) (cli : Cli) (o : CommandOutcome) (sched : List Bool)
    (h : containsRecipe cfg.recipes cfg.default_recipe = true) :
    (OpenDrainPin.new pin0 s fs).pin.resetOnDrop = false ∧
    actionCount (.pinDrop .boot) (mainRun cfg cli o sched).2 = 1 ∧
    actionCount (.pinDrop .reset) (mainRun cfg cli o sched).2 = 1 := by
  refine ⟨?_, ?_, ?_⟩
  · cases s <;>
      simp [OpenDrainPin.new, OpenDrainPin.set, OpenDrainPin.set_low,
        OpenDrainPin.set_open, IoPin.applyAll, IoPin.applyAction,
        setLowActions, setOpenActions]
  all_goals
    rcases hsel : selectRecipe cfg.recipes cfg.default_recipe cli.recipe with _ | r
  all_goals try
    simp [mainRun, h, hsel, actionCount_append, actionCount_merge,
      actionCount_pinDrop_bootstrap, actionCount_pinDrop_resetTask,
      actionCount_pinDrop_dropTrace, actionCount]
  all_goals
    rcases o with _ | c <;>
      simp [mainRun, h, hsel, Recipe.execute, actionCount_append,
        actionCount_merge, actionCount_pinDrop_bootstrap,
        actionCount_pinDrop_resetTask, actionCount_pinDrop_step6,
        actionCount_pinDrop_dropTrace, actionCount_pinDrop_spawn]

/-- Witness for teardown_exactly_once at the example configuration, a fresh
Input pin, and a spawn failure, the harshest of the exits. -/
theorem teardown_exactly_once_witness :
    containsRecipe cfgEx.recipes cfgEx.default_recipe = true ∧
    (OpenDrainPin.new ⟨.Input, .High, none, true⟩ .Open
      ⟨none, none, none⟩).pin.resetOnDrop = false ∧
    actionCount (.pinDrop .boot) (mainRun cfgEx cliEx .spawnError []).2 = 1 ∧
    actionCount (.pinDrop .reset) (mainRun cfgEx cliEx .spawnError []).2 = 1 := by
  refine ⟨by decide, ?_⟩
  exact teardown_exactly_once ⟨.Input, .High, none, true⟩ .Open ⟨none, none, none⟩
    cfgEx cliEx .spawnError [] (by decide)

end D1Flash
